import Mathlib

/-!
# hello-go-log: the file-backed logger of `logger/logger.go`

A shallow embedding of package `logger` and the properties of its
specification that were settled against it.

Conventions of the embedding.

* A Go `string` is a `Str`, a list of characters.  The only searches the
  package makes are for the one-byte strings `"."` and the path separator, so
  cutting a well-formed UTF-8 string at a character index and at the matching
  byte index gives the same pieces.
* A Go `int` is an `Int`; the package does no arithmetic on its integers
  beyond `LastIndex(..) + 1`.
* A run-time panic is the `error` case of `Except Panic`.
* The package-level variables are the fields of `LoggerState`, threaded
  through every function that reads or writes them.
* The operating system is a `World`: numbered files with their content, the
  directory that leads from paths to files, the open descriptors and the
  files they hold, the directories, the working directory, the current
  instant, an oracle for the calls the system refuses, and a trace of the
  calls issued.
* The standard-library functions whose text is not part of the repository
  (`time`, `fmt.Sprintf`) are the fields of `Lib`.
-/

namespace HelloGoLog

/-- A Go string. -/
abbrev Str := List Char

/-- The ways a call into the package can abort. -/
inductive Panic where
  | sliceBounds
  | nilPointer
  | getwdFailed
  | openFailed
  | renameFailed
  deriving DecidableEq, Repr

/-! ## `strings.Index`, `strings.LastIndex` and slicing -/

/-- Scan for `strings.Index`: `k` is the index of the head of the remaining text. -/
def IndexFrom (substr : Str) : Str → Nat → Int
  | [], k => if substr = [] then (k : Int) else -1
  | c :: cs, k =>
    if substr.isPrefixOf (c :: cs) then (k : Int) else IndexFrom substr cs (k + 1)

/-- Go `strings.Index(s, substr)`: the index of the first instance of `substr`
in `s`, or `-1` when there is none. -/
def Index (s substr : Str) : Int := IndexFrom substr s 0

/-- Scan for `strings.LastIndex`: `last` is the latest match seen so far. -/
def LastIndexFrom (substr : Str) : Str → Nat → Int → Int
  | [], k, last => if substr = [] then (k : Int) else last
  | c :: cs, k, last =>
    LastIndexFrom substr cs (k + 1) (if substr.isPrefixOf (c :: cs) then (k : Int) else last)

/-- Go `strings.LastIndex(s, substr)`: the index of the last instance of
`substr` in `s`, or `-1` when there is none. -/
def LastIndex (s substr : Str) : Int := LastIndexFrom substr s 0 (-1)

/-- Go `s[i:]`: aborts unless `0 ≤ i ≤ len(s)`. -/
def sliceFrom (s : Str) (i : Int) : Except Panic Str :=
  if 0 ≤ i ∧ i ≤ (s.length : Int) then .ok (s.drop i.toNat) else .error .sliceBounds

/-- Go `s[:j]`: aborts unless `0 ≤ j ≤ len(s)`. -/
def sliceTo (s : Str) (j : Int) : Except Panic Str :=
  if 0 ≤ j ∧ j ≤ (s.length : Int) then .ok (s.take j.toNat) else .error .sliceBounds

/-! ## The library the package calls -/

/-- The standard-library functions the package calls and whose text is not in
the repository.  An instant is a number of seconds since the Unix epoch. -/
structure Lib (Arg : Type) where
  /-- The value of `t.Local().Day()`: the day of the month of `t` in the local zone. -/
  day : Int → Int
  /-- The value of `t.Local().Format("2006-01-02")`. -/
  date : Int → Str
  /-- The header `log` writes for the flags `Ldate|Ltime`: `2006/01/02 15:04:05 `. -/
  stamp : Int → Str
  /-- The value of `fmt.Sprintf(format, v...)`. -/
  sprintf : Str → List Arg → Str

/-! ## Filename helpers -/

/-- Source `checkHavePostfix`: append `.log` when the name holds no `.`. -/
def checkHavePostfix (filename : Str) : Str :=
  if Index filename ['.'] = -1 then filename ++ ".log".toList else filename

/-- Source `getHistoryFileName`, for the path separator `sep` and the instant
`now` that its `time.Now()` reads: split the name at its last separator and
put the date of 24 hours earlier behind the last part. -/
def getHistoryFileName {Arg : Type} (lib : Lib Arg) (sep : Char) (now : Int)
    (filename : Str) : Except Panic Str :=
  let pathSep : Str := [sep]
  match sliceFrom filename (LastIndex filename pathSep + 1) with
  | .error e => .error e
  | .ok fileName =>
    match sliceTo filename (LastIndex filename pathSep) with
    | .error e => .error e
    | .ok path =>
      let newFileName := fileName ++ ['.'] ++ lib.date (now - 24 * 3600)
      .ok (path ++ pathSep ++ newFileName)

/-! ## The operating system -/

/-- A call the package makes into the operating system. -/
inductive Call where
  | stat (path : Str)
  | mkdir (path : Str)
  | getwd
  | openFile (name : Str)
  | rename (oldpath newpath : Str)
  | close (fd : Nat)
  | write (fd : Nat) (text : Str)
  deriving DecidableEq, Repr

/-- An `*os.File`: the name it was opened with and its descriptor. -/
structure File where
  name : Str
  fd : Nat
  deriving DecidableEq, Repr

/-- The state of the operating system as the package sees it.

Files are numbered; file `i` has content `data i` and exists when `i < made`.
`names` is the directory: the file a path leads to.  An open descriptor `k`
(`isOpen k`) holds the file `holds k`, whatever happens to the names
afterwards.  `now` is the instant `time.Now()` reads; it is held fixed over
one call into the package.  `refuses` tells which calls the system turns down
for a reason the rest of the state does not show (permissions, quotas, a full
disk); a write that is turned down still puts down the first `short` bytes.
`trace` lists the calls issued, oldest first. -/
structure World where
  now : Int
  cwd : Option Str
  dirs : List Str
  names : Str → Option Nat
  data : Nat → Str
  made : Nat
  isOpen : Nat → Bool
  holds : Nat → Nat
  nextFd : Nat
  refuses : Call → Bool
  short : Nat
  trace : List Call

/-- Record a call in the trace. -/
def World.issue (w : World) (c : Call) : World :=
  { w with trace := w.trace ++ [c] }

/-- The file a path names: its directory entry, when that is a file that
exists. -/
def World.lookup (w : World) (path : Str) : Option Nat :=
  match w.names path with
  | some i => if i < w.made then some i else none
  | none => none

/-- The content of the file a path names. -/
def World.read (w : World) (path : Str) : Option Str :=
  (w.lookup path).map w.data

/-- The answer of `os.Stat`: the path names a directory or a file.  The empty
path names nothing. -/
def World.present (w : World) (path : Str) : Bool :=
  path ≠ [] && (w.dirs.contains path || (w.lookup path).isSome)

/-- The call `os.Mkdir(path, os.ModePerm)`: whether it succeeded, and the world
after it.  It fails on the empty path, on a path that is present and when the
system refuses. -/
def World.Mkdir (w : World) (path : Str) : Bool × World :=
  let w1 := w.issue (.mkdir path)
  if path = [] ∨ w.present path = true ∨ w.refuses (.mkdir path) = true then (false, w1)
  else (true, { w1 with dirs := path :: w1.dirs })

/-- The call `os.OpenFile(name, O_CREATE|O_WRONLY|O_APPEND, 0664)`: `none` when
the system refuses; otherwise a fresh descriptor that holds the file of that
name, which is left as it is when it was there and is made, empty, as the next
new file when it was not. -/
def World.OpenFile (w : World) (name : Str) : Option (File × World) :=
  if w.refuses (.openFile name) = true then none
  else
    let w1 := w.issue (.openFile name)
    match w.lookup name with
    | some i =>
      some (⟨name, w.nextFd⟩,
        { w1 with
          isOpen := fun k => if k = w.nextFd then true else w.isOpen k
          holds := fun k => if k = w.nextFd then i else w.holds k
          nextFd := w.nextFd + 1 })
    | none =>
      some (⟨name, w.nextFd⟩,
        { w1 with
          names := fun p => if p = name then some w.made else w.names p
          data := fun j => if j = w.made then [] else w.data j
          made := w.made + 1
          isOpen := fun k => if k = w.nextFd then true else w.isOpen k
          holds := fun k => if k = w.nextFd then w.made else w.holds k
          nextFd := w.nextFd + 1 })

/-- The call `os.Rename(oldpath, newpath)`: `none` when `oldpath` names no file
or the system refuses; otherwise `newpath` leads to the file `oldpath` led to,
in place of what it led to before, and `oldpath` leads nowhere. -/
def World.Rename (w : World) (oldpath newpath : Str) : Option World :=
  match w.lookup oldpath with
  | none => none
  | some i =>
    if w.refuses (.rename oldpath newpath) = true then none
    else
      some { w.issue (.rename oldpath newpath) with
        names := fun p =>
          if p = newpath then some i else if p = oldpath then none else w.names p }

/-- The call `f.Close()`; its error is never looked at. -/
def World.Close (w : World) (f : File) : World :=
  { w.issue (.close f.fd) with isOpen := fun k => if k = f.fd then false else w.isOpen k }

/-- The call `f.Write(text)` on a file opened for appending; its error is never
looked at.  The bytes go to the end of the file the descriptor holds.  A write
the system turns down puts down the first `short` bytes only; a closed
descriptor takes nothing. -/
def World.Write (w : World) (f : File) (text : Str) : World :=
  let w1 := w.issue (.write f.fd text)
  if w.isOpen f.fd = true then
    let put := if w.refuses (.write f.fd text) = true then text.take w.short else text
    { w1 with data := fun i => if i = w.holds f.fd then w.data i ++ put else w.data i }
  else w1

/-! ## Package state -/

/-- A `*log.Logger` made by `log.New(out, tag, log.Ldate|log.Ltime)`. -/
structure Logger where
  out : File
  tag : Str
  deriving DecidableEq, Repr

/-- The package-level variables of `logger` (the lock apart). -/
structure LoggerState where
  infoLogger : Option Logger
  debugLogger : Option Logger
  errLogger : Option Logger
  logOut : Option File
  logLevel : Int
  logPath : Str
  showFileName : Bool
  currentDay : Int
  deriving DecidableEq, Repr

/-- The zero values the variables hold at process start. -/
def LoggerState.zero : LoggerState :=
  ⟨none, none, none, none, 0, [], false, 0⟩

def DebugLevel : Int := 0

def InfoLevel : Int := 1

def ErrorLevel : Int := 2

/-- The text `log.Logger.Output` hands to its writer for message `s`: a line
break is added unless `s` ends in one. -/
def endLine (s : Str) : Str :=
  if s.getLast? = some '\n' then s else s ++ ['\n']

/-- The call `l.Printf("%s %s", a, b)` with the text `s = a ++ " " ++ b` already
put together: one `Write` of tag, time stamp and message to the logger's file.
A nil logger aborts. -/
def Logger.Printf {Arg : Type} (lib : Lib Arg) (w : World) (l : Option Logger) (s : Str) :
    Except Panic World :=
  match l with
  | none => .error .nilPointer
  | some l => .ok (w.Write l.out (l.tag ++ lib.stamp w.now ++ endLine s))

/-! ## Caller location -/

/-- One frame of the goroutine's stack: source file, function name and the
line the frame is executing. -/
structure Frame where
  file : Str
  fn : Str
  line : Nat
  deriving DecidableEq, Repr

/-- The call `runtime.Caller(skip)` on a stack whose head is the frame of the
function calling it. -/
def Caller (skip : Nat) (stack : List Frame) : Option Frame := stack.get? skip

/-- The source file of the package, as the frames of its own functions name it. -/
def loggerFile : Str := "logger/logger.go".toList

/-- Source `getCallTrace`; `stack` has the frame of its caller at the head. -/
def getCallTrace (stack : List Frame) : Str × Str × Nat :=
  match Caller 3 (⟨loggerFile, "logger.getCallTrace".toList, 95⟩ :: stack) with
  | some fr => (fr.file, fr.fn, fr.line)
  | none => ([], [], 0)

/-- The text of `%d` for a line number. -/
def itoa (n : Nat) : Str := Nat.toDigits 10 n

/-- Source `getPrefix`; `stack` has the frame of its caller at the head. -/
def getPrefix (st : LoggerState) (stack : List Frame) : Str :=
  match getCallTrace (⟨loggerFile, "logger.getPrefix".toList, 105⟩ :: stack) with
  | (fileName, fnName, lineNo) =>
    if !st.showFileName then fnName ++ [':'] ++ itoa lineNo
    else fileName ++ "->".toList ++ fnName ++ [':'] ++ itoa lineNo

/-! ## Setup, rotation and the emit operations -/

def SetLevel (st : LoggerState) (level : Int) : LoggerState :=
  { st with logLevel := level }

def SetShowFileName (st : LoggerState) (show_ : Bool) : LoggerState :=
  { st with showFileName := show_ }

/-- Source `openFile`: record the day, open the file, make the three loggers. -/
def openFile {Arg : Type} (lib : Lib Arg) (st : LoggerState) (w : World) (fileName : Str) :
    Except Panic (LoggerState × World) :=
  let st1 := { st with currentDay := lib.day w.now }
  match w.OpenFile fileName with
  | none => .error .openFailed
  | some (f, w1) =>
    .ok ({ st1 with
            logOut := some f
            infoLogger := some ⟨f, "[INFO] ".toList⟩
            debugLogger := some ⟨f, "[DEBUG] ".toList⟩
            errLogger := some ⟨f, "[ERROR] ".toList⟩ }, w1)

/-- Source `checkPath`: remember the directory and make it when `os.Stat` says
it is not there; what `os.Mkdir` returns is dropped. -/
def checkPath (st : LoggerState) (w : World) (path : Str) : LoggerState × World :=
  let st1 := { st with logPath := path }
  let w1 := w.issue (.stat path)
  if w.present path = false then (st1, (w1.Mkdir path).2) else (st1, w1)

/-- Source `getFullName`: working directory, remembered directory and file
name joined by the path separator. -/
def getFullName (sep : Char) (st : LoggerState) (w : World) (filename : Str) :
    Except Panic (Str × World) :=
  let pathSep : Str := [sep]
  match w.cwd with
  | none => .error .getwdFailed
  | some rootPath =>
    .ok (rootPath ++ pathSep ++ st.logPath ++ pathSep ++ filename, w.issue .getwd)

/-- Source `SetFile`. -/
def SetFile {Arg : Type} (lib : Lib Arg) (sep : Char) (st : LoggerState) (w : World)
    (path file : Str) : Except Panic (LoggerState × World) :=
  let file := checkHavePostfix file
  match checkPath st w path with
  | (st1, w1) =>
    match getFullName sep st1 w1 file with
    | .error e => .error e
    | .ok (fullName, w2) => openFile lib st1 w2 fullName

/-- Source `checkDayChange`: when the recorded day is not today's, close the
file, rename it to its history name and open the original name afresh.
`logOut.Name()` on a nil file aborts. -/
def checkDayChange {Arg : Type} (lib : Lib Arg) (sep : Char) (st : LoggerState) (w : World) :
    Except Panic (LoggerState × World) :=
  if st.currentDay ≠ lib.day w.now then
    match st.logOut with
    | none => .error .nilPointer
    | some f =>
      let w1 := w.Close f
      let fileName := f.name
      match getHistoryFileName lib sep w.now fileName with
      | .error e => .error e
      | .ok historyFileName =>
        match w1.Rename fileName historyFileName with
        | none => .error .renameFailed
        | some w2 => openFile lib st w2 fileName
  else .ok (st, w)

/-- Source `Info`; `stack` has the frame of the code calling it at the head. -/
def Info {Arg : Type} (lib : Lib Arg) (sep : Char) (st : LoggerState) (w : World)
    (stack : List Frame) (format : Str) (v : List Arg) : Except Panic (LoggerState × World) :=
  if st.logLevel ≤ InfoLevel then
    match checkDayChange lib sep st w with
    | .error e => .error e
    | .ok (st1, w1) =>
      let info := lib.sprintf format v
      let here : Frame := ⟨loggerFile, "logger.Info".toList, 61⟩
      match Logger.Printf lib w1 st1.infoLogger ( getPrefix st1 (here :: stack) ++ [' '] ++ info) with
      | .error e => .error e
      | .ok w2 => .ok (st1, w2)
  else .ok (st, w)

/-- Source `Debug`; `stack` has the frame of the code calling it at the head. -/
def Debug {Arg : Type} (lib : Lib Arg) (sep : Char) (st : LoggerState) (w : World)
    (stack : List Frame) (format : Str) (v : List Arg) : Except Panic (LoggerState × World) :=
  if st.logLevel ≤ DebugLevel then
    match checkDayChange lib sep st w with
    | .error e => .error e
    | .ok (st1, w1) =>
      let info := lib.sprintf format v
      let here : Frame := ⟨loggerFile, "logger.Debug".toList, 69⟩
      match Logger.Printf lib w1 st1.debugLogger ( getPrefix st1 (here :: stack) ++ [' '] ++ info) with
      | .error e => .error e
      | .ok w2 => .ok (st1, w2)
  else .ok (st, w)

/-- Source `Error`: the caller trace is taken, and dropped, before the level
is looked at. -/
def Error {Arg : Type} (lib : Lib Arg) (sep : Char) (st : LoggerState) (w : World)
    (stack : List Frame) (format : Str) (v : List Arg) : Except Panic (LoggerState × World) :=
  let _unused := getCallTrace (⟨loggerFile, "logger.Error".toList, 74⟩ :: stack)
  if st.logLevel ≤ ErrorLevel then
    match checkDayChange lib sep st w with
    | .error e => .error e
    | .ok (st1, w1) =>
      let info := lib.sprintf format v
      let here : Frame := ⟨loggerFile, "logger.Error".toList, 78⟩
      match Logger.Printf lib w1 st1.errLogger ( getPrefix st1 (here :: stack) ++ [' '] ++ info) with
      | .error e => .error e
      | .ok w2 => .ok (st1, w2)
  else .ok (st, w)

/-- The three emit operations. -/
inductive Emit where
  | debug
  | info
  | error
  deriving DecidableEq, Repr

/-- The severity of an operation: the constant its level test compares with. -/
def Emit.severity : Emit → Int
  | .debug => DebugLevel
  | .info => InfoLevel
  | .error => ErrorLevel

/-- The tag of the logger an operation writes through. -/
def Emit.tag : Emit → Str
  | .debug => "[DEBUG] ".toList
  | .info => "[INFO] ".toList
  | .error => "[ERROR] ".toList

/-- Call the operation. -/
def Emit.run {Arg : Type} (e : Emit) (lib : Lib Arg) (sep : Char) (st : LoggerState)
    (w : World) (stack : List Frame) (format : Str) (v : List Arg) :
    Except Panic (LoggerState × World) :=
  match e with
  | .debug => Debug lib sep st w stack format v
  | .info => Info lib sep st w stack format v
  | .error => Error lib sep st w stack format v

/-! ## Vocabulary of the properties -/

/-- The logger holds an open file `f`: the variables are as `openFile` leaves
them, and the descriptor of `f` is open. -/
def Ready (st : LoggerState) (w : World) (f : File) : Prop :=
  st.logOut = some f ∧
  st.infoLogger = some ⟨f, "[INFO] ".toList⟩ ∧
  st.debugLogger = some ⟨f, "[DEBUG] ".toList⟩ ∧
  st.errLogger = some ⟨f, "[ERROR] ".toList⟩ ∧
  w.isOpen f.fd = true

instance (st : LoggerState) (w : World) (f : File) : Decidable (Ready st w f) := by
  unfold Ready
  infer_instance

/-- The logger variable an operation writes through. -/
def Emit.logger (e : Emit) (st : LoggerState) : Option Logger :=
  match e with
  | .debug => st.debugLogger
  | .info => st.infoLogger
  | .error => st.errLogger

/-- The frame of an operation at its call of `getPrefix`. -/
def Emit.here : Emit → Frame
  | .debug => ⟨loggerFile, "logger.Debug".toList, 69⟩
  | .info => ⟨loggerFile, "logger.Info".toList, 61⟩
  | .error => ⟨loggerFile, "logger.Error".toList, 78⟩

/-- The frame of the code that invoked the emit operation, as file, function
and line; empty name and line 0 when there is no such frame. -/
def resolvedCaller (stack : List Frame) : Str × Str × Nat :=
  match stack with
  | fr :: _ => (fr.file, fr.fn, fr.line)
  | [] => ([], [], 0)

/-- The caller location in the words of the specification: `function:line`,
or `file->function:line` when file names are shown. -/
def callerLocation (showFileName : Bool) (caller : Str × Str × Nat) : Str :=
  if showFileName = true then
    caller.1 ++ "->".toList ++ caller.2.1 ++ [':'] ++ itoa caller.2.2
  else caller.2.1 ++ [':'] ++ itoa caller.2.2

/-- The calls of a trace that are renames. -/
def renames (calls : List Call) : List Call :=
  calls.filter fun c => match c with
    | .rename _ _ => true
    | _ => false

/-! ## A sample library and sample worlds

Used to run the definitions on concrete inputs: the proleptic Gregorian
calendar in UTC, and a `Sprintf` that knows the verb `%s` only. -/

/-- Year, month and day of the day that lies `z` days after 1970-01-01. -/
def civil (z : Int) : Int × Int × Int :=
  let z := z + 719468
  let era := z / 146097
  let doe := z - era * 146097
  let yoe := (doe - doe / 1460 + doe / 36524 - doe / 146096) / 365
  let doy := doe - (365 * yoe + yoe / 4 - yoe / 100)
  let mp := (5 * doy + 2) / 153
  let d := doy - (153 * mp + 2) / 5 + 1
  let m := if mp < 10 then mp + 3 else mp - 9
  (if m ≤ 2 then yoe + era * 400 + 1 else yoe + era * 400, m, d)

/-- Decimal digits of `n`, padded with zeros to `width`. -/
def pad (width : Nat) (n : Int) : Str :=
  let ds := Nat.toDigits 10 n.toNat
  List.replicate (width - ds.length) '0' ++ ds

def utcDay (t : Int) : Int := (civil (t / 86400)).2.2

def utcDate (t : Int) : Str :=
  match civil (t / 86400) with
  | (y, m, d) => pad 4 y ++ ['-'] ++ pad 2 m ++ ['-'] ++ pad 2 d

def utcStamp (t : Int) : Str :=
  let s := t % 86400
  match civil (t / 86400) with
  | (y, m, d) =>
    pad 4 y ++ ['/'] ++ pad 2 m ++ ['/'] ++ pad 2 d ++ [' '] ++
      pad 2 (s / 3600) ++ [':'] ++ pad 2 (s % 3600 / 60) ++ [':'] ++ pad 2 (s % 60) ++ [' ']

/-- A `Sprintf` for string arguments and the verb `%s`. -/
def sprintfS : Str → List Str → Str
  | '%' :: 's' :: rest, a :: as => a ++ sprintfS rest as
  | c :: rest, as => c :: sprintfS rest as
  | [], _ => []

/-- The sample library. -/
def utc : Lib Str := ⟨utcDay, utcDate, utcStamp, sprintfS⟩

/-- A world at instant `t` with working directory `/home/u`, no files, no
directories but the working directory, and nothing refused. -/
def emptyWorld (t : Int) : World :=
  { now := t
    cwd := some "/home/u".toList
    dirs := ["/home/u".toList]
    names := fun _ => none
    data := fun _ => []
    made := 0
    isOpen := fun _ => false
    holds := fun _ => 0
    nextFd := 3
    refuses := fun _ => false
    short := 0
    trace := [] }

/-- The frame of `main.main` calling an emit operation at line 10 of `main.go`. -/
def mainFrame : Frame := ⟨"main.go".toList, "main.main".toList, 10⟩

/-- The log file of the samples. -/
def sampleFile : File := ⟨"/home/u/logs/test.log".toList, 3⟩

/-- The variables as `SetFile("logs", "test")` leaves them on day-of-month
`day`, with the level then set to `level`. -/
def sampleState (level day : Int) : LoggerState :=
  { infoLogger := some ⟨sampleFile, "[INFO] ".toList⟩
    debugLogger := some ⟨sampleFile, "[DEBUG] ".toList⟩
    errLogger := some ⟨sampleFile, "[ERROR] ".toList⟩
    logOut := some sampleFile
    logLevel := level
    logPath := "logs".toList
    showFileName := false
    currentDay := day }

/-- A world at instant `t` in which descriptor 3 is open on file 0, the log
file of the samples; `content` is what the file holds under its name (`none`:
the name has been removed from the disk, the file holding `gone`), and
`refuses` tells the calls the system turns down. -/
def sampleWorld (t : Int) (content : Option Str) (refuses : Call → Bool) : World :=
  { now := t
    cwd := some "/home/u".toList
    dirs := ["/home/u".toList, "/home/u/logs".toList]
    names := fun p => if p = sampleFile.name ∧ content.isSome = true then some 0 else none
    data := fun i => if i = 0 then content.getD "gone\n".toList else []
    made := 1
    isOpen := fun k => k == 3
    holds := fun _ => 0
    nextFd := 4
    refuses := refuses
    short := 0
    trace := [] }

/-- The system turns down every write and nothing else. -/
def writesRefused : Call → Bool
  | .write _ _ => true
  | _ => false

/-- 2024-01-05 10:04:05 UTC. -/
def jan5 : Int := 1704449045

/-- 2024-01-06 10:04:05 UTC. -/
def jan6 : Int := 1704535445

/-- 2024-02-05 10:04:05 UTC. -/
def feb5 : Int := 1707127445

example : utcDate jan5 = "2024-01-05".toList := by decide

example : utcStamp jan5 = "2024/01/05 10:04:05 ".toList := by decide

example : utcDay feb5 = 5 := by decide

example : checkHavePostfix "test".toList = "test.log".toList := by decide

example : LastIndex "a/b/c".toList ['/'] = 3 := by decide

example : LastIndex "abc".toList ['/'] = -1 := by decide

/-- The program of `main.go`: `SetFile("logs", "test.log")`, then
`Info("hello world %s", "test")` from line 10 of `main.main`. -/
example :
    (match SetFile utc '/' LoggerState.zero (emptyWorld jan5) "logs".toList "test.log".toList with
     | .ok (st, w) =>
       (match Info utc '/' st w [mainFrame] "hello world %s".toList ["test".toList] with
        | .ok (_, w2) => w2.read "/home/u/logs/test.log".toList
        | .error _ => none)
     | .error _ => none)
    = some "[INFO] 2024/01/05 10:04:05 main.main:10 hello world test\n".toList := by
  decide

/-! ## Facts about the string functions -/

theorem isPrefixOf_single (c d : Char) (ds : Str) :
    List.isPrefixOf [c] (d :: ds) = (c == d) := by
  simp [List.isPrefixOf]

theorem IndexFrom_single_eq_neg_one (c : Char) :
    ∀ (s : Str) (k : Nat), IndexFrom [c] s k = -1 ↔ c ∉ s := by
  intro s
  induction s with
  | nil => intro k; simp [IndexFrom]
  | cons d ds ih =>
    intro k
    rw [IndexFrom, isPrefixOf_single]
    by_cases hcd : c = d
    · subst hcd
      simp only [beq_self_eq_true, if_true, List.mem_cons, true_or, not_true_eq_false, iff_false]
      omega
    · have hne : (c == d) = false := by simpa using hcd
      simp only [hne, Bool.false_eq_true, if_false, ih (k + 1), List.mem_cons, hcd, false_or]

theorem Index_single_eq_neg_one (c : Char) (s : Str) : Index s [c] = -1 ↔ c ∉ s :=
  IndexFrom_single_eq_neg_one c s 0

theorem LastIndexFrom_not_mem (c : Char) :
    ∀ (s : Str) (k : Nat) (last : Int), c ∉ s → LastIndexFrom [c] s k last = last := by
  intro s
  induction s with
  | nil => intro k last _; simp [LastIndexFrom]
  | cons d ds ih =>
    intro k last h
    have hcd : ¬ c = d := fun e => h (by simp [e])
    have hds : c ∉ ds := fun e => h (List.mem_cons_of_mem _ e)
    have hne : (c == d) = false := by simpa using hcd
    rw [LastIndexFrom, isPrefixOf_single, hne, ih (k + 1) _ hds]
    simp

theorem LastIndexFrom_mem (c : Char) :
    ∀ (s : Str) (k : Nat) (last : Int), c ∈ s →
      ∃ a b : Str, s = a ++ c :: b ∧ c ∉ b ∧ LastIndexFrom [c] s k last = ((k + a.length : Nat) : Int) := by
  intro s
  induction s with
  | nil => intro k last h; simp at h
  | cons d ds ih =>
    intro k last h
    by_cases hds : c ∈ ds
    · obtain ⟨a, b, hs, hb, hres⟩ :=
        ih (k + 1) (if List.isPrefixOf [c] (d :: ds) then (k : Int) else last) hds
      refine ⟨d :: a, b, by simp [hs], hb, ?_⟩
      rw [LastIndexFrom, hres]
      simp only [List.length_cons]
      congr 1
      omega
    · have hcd : c = d := by
        rcases List.mem_cons.1 h with e | e
        · exact e
        · exact absurd e hds
      subst hcd
      refine ⟨[], ds, by simp, hds, ?_⟩
      rw [LastIndexFrom, isPrefixOf_single, LastIndexFrom_not_mem c ds _ _ hds]
      simp

theorem LastIndex_single_mem (c : Char) (s : Str) (h : c ∈ s) :
    ∃ a b : Str, s = a ++ c :: b ∧ c ∉ b ∧ LastIndex s [c] = (a.length : Int) := by
  obtain ⟨a, b, hs, hb, hres⟩ := LastIndexFrom_mem c s 0 (-1) h
  exact ⟨a, b, hs, hb, by rw [LastIndex, hres]; simp⟩

theorem LastIndex_single_not_mem (c : Char) (s : Str) (h : c ∉ s) : LastIndex s [c] = -1 :=
  LastIndexFrom_not_mem c s 0 (-1) h

theorem getHistoryFileName_of_mem {Arg : Type} (lib : Lib Arg) (sep : Char) (now : Int)
    (p : Str) (h : sep ∈ p) :
    getHistoryFileName lib sep now p = .ok (p ++ ['.'] ++ lib.date (now - 24 * 3600)) := by
  obtain ⟨a, b, hs, _, hres⟩ := LastIndex_single_mem sep p h
  have hlen : (p.length : Int) = a.length + 1 + b.length := by
    rw [hs]; simp; omega
  have h1 : sliceFrom p ((a.length : Int) + 1) = .ok b := by
    have hd : List.drop (a.length + 1) p = b := by
      rw [hs, List.drop_append_eq_append_drop]; simp
    have hn : ((a.length : Int) + 1).toNat = a.length + 1 := by omega
    rw [sliceFrom, if_pos (by omega), hn, hd]
  have h2 : sliceTo p (a.length : Int) = .ok a := by
    have hd : List.take a.length p = a := by
      rw [hs]; simp
    rw [sliceTo, if_pos (by omega), Int.toNat_ofNat, hd]
  simp only [getHistoryFileName, hres, h1, h2]
  rw [hs]
  simp

theorem getHistoryFileName_of_not_mem {Arg : Type} (lib : Lib Arg) (sep : Char) (now : Int)
    (p : Str) (h : sep ∉ p) :
    getHistoryFileName lib sep now p = .error .sliceBounds := by
  have hres := LastIndex_single_not_mem sep p h
  have h1 : sliceFrom p (-1 + 1) = .ok p := by
    rw [sliceFrom, if_pos (by simp)]; simp
  have h2 : sliceTo p (-1) = .error .sliceBounds := by
    rw [sliceTo, if_neg (by omega)]
  simp only [getHistoryFileName, hres, h1, h2]

/-! ## Facts about the operations -/

theorem Emit.run_eq {Arg : Type} (e : Emit) (lib : Lib Arg) (sep : Char) (st : LoggerState)
    (w : World) (stack : List Frame) (format : Str) (v : List Arg) :
    e.run lib sep st w stack format v =
      if st.logLevel ≤ e.severity then
        match checkDayChange lib sep st w with
        | .error x => .error x
        | .ok (st1, w1) =>
          match Logger.Printf lib w1 (e.logger st1)
              ( getPrefix st1 (e.here :: stack) ++ [' '] ++ lib.sprintf format v) with
          | .error x => .error x
          | .ok w2 => .ok (st1, w2)
      else .ok (st, w) := by
  cases e <;> rfl

theorem getCallTrace_caller (a b : Frame) (stack : List Frame) :
    getCallTrace (a :: b :: stack) = resolvedCaller stack := by
  cases stack <;> rfl

theorem getPrefix_eq (st : LoggerState) (a : Frame) (stack : List Frame) :
    getPrefix st (a :: stack) = callerLocation st.showFileName (resolvedCaller stack) := by
  unfold getPrefix
  rw [getCallTrace_caller]
  cases h : st.showFileName <;> simp [callerLocation]

theorem Emit.logger_of_ready (e : Emit) {st : LoggerState} {w : World} {f : File}
    (h : Ready st w f) : e.logger st = some ⟨f, e.tag⟩ := by
  obtain ⟨_, hi, hd, he, _⟩ := h
  cases e <;> simp [Emit.logger, Emit.tag, hi, hd, he]

theorem endLine_getLast (s : Str) : (endLine s).getLast? = some '\n' := by
  unfold endLine
  split
  · assumption
  · simp

theorem endLine_ne_nil (s : Str) : endLine s ≠ [] := by
  intro h
  have := endLine_getLast s
  rw [h] at this
  simp at this

theorem record_getLast (a b s : Str) : (a ++ b ++ endLine s).getLast? = some '\n' := by
  rw [List.getLast?_append_of_ne_nil _ (endLine_ne_nil s)]
  exact endLine_getLast s

theorem checkDayChange_same {Arg : Type} (lib : Lib Arg) (sep : Char) (st : LoggerState)
    (w : World) (h : st.currentDay = lib.day w.now) :
    checkDayChange lib sep st w = .ok (st, w) := by
  simp [checkDayChange, h]

theorem getHistoryFileName_ok {Arg : Type} (lib : Lib Arg) (sep : Char) (now : Int)
    (p hist : Str) (h : getHistoryFileName lib sep now p = .ok hist) :
    sep ∈ p ∧ hist = p ++ ['.'] ++ lib.date (now - 24 * 3600) := by
  by_cases hm : sep ∈ p
  · rw [getHistoryFileName_of_mem lib sep now p hm] at h
    exact ⟨hm, (Except.ok.inj h).symm⟩
  · rw [getHistoryFileName_of_not_mem lib sep now p hm] at h
    cases h

theorem history_ne {Arg : Type} (lib : Lib Arg) (sep : Char) (now : Int)
    (p hist : Str) (h : getHistoryFileName lib sep now p = .ok hist) : hist ≠ p := by
  obtain ⟨_, rfl⟩ := getHistoryFileName_ok lib sep now p hist h
  intro e
  have := congrArg List.length e
  simp at this

theorem checkDayChange_due {Arg : Type} (lib : Lib Arg) (sep : Char) (st : LoggerState)
    (w : World) (f : File) (hist : Str)
    (hout : st.logOut = some f) (hday : st.currentDay ≠ lib.day w.now)
    (hhist : getHistoryFileName lib sep w.now f.name = .ok hist) :
    checkDayChange lib sep st w =
      match (w.Close f).Rename f.name hist with
      | none => .error .renameFailed
      | some w2 => openFile lib st w2 f.name := by
  simp [checkDayChange, hday, hout, hhist]

theorem lookup_of (w : World) (p : Str) (i : Nat) (h1 : w.names p = some i) (h2 : i < w.made) :
    w.lookup p = some i := by
  simp [World.lookup, h1, h2]

theorem lookup_lt (w : World) (p : Str) (i : Nat) (h : w.lookup p = some i) :
    w.names p = some i ∧ i < w.made := by
  unfold World.lookup at h
  split at h
  · split at h
    · cases h
      exact ⟨by assumption, by assumption⟩
    · cases h
  · cases h

theorem Close_lookup (w : World) (f : File) (p : Str) : (w.Close f).lookup p = w.lookup p := rfl

theorem Rename_isSome (w : World) (a b : Str) (h : (w.Rename a b).isSome = true) :
    ∃ i, w.lookup a = some i ∧ i < w.made ∧ w.refuses (.rename a b) = false ∧
      w.Rename a b = some { w.issue (.rename a b) with
        names := fun p => if p = b then some i else if p = a then none else w.names p } := by
  unfold World.Rename at h ⊢
  cases hc : w.lookup a with
  | none => simp [hc] at h
  | some i =>
    have hi : i < w.made := by
      unfold World.lookup at hc
      split at hc
      · split at hc
        · cases hc; assumption
        · cases hc
      · cases hc
    cases hx : w.refuses (.rename a b) with
    | true => simp [hc, hx] at h
    | false => exact ⟨i, rfl, hi, rfl, by simp⟩

theorem openFile_new {Arg : Type} (lib : Lib Arg) (st : LoggerState) (w : World) (name : Str)
    (hr : w.refuses (.openFile name) = false) (hl : w.lookup name = none) :
    ∃ st1 w1, openFile lib st w name = .ok (st1, w1) ∧
      Ready st1 w1 ⟨name, w.nextFd⟩ ∧
      st1.currentDay = lib.day w.now ∧ st1.logLevel = st.logLevel ∧
      st1.showFileName = st.showFileName ∧
      w1.now = w.now ∧ w1.refuses = w.refuses ∧ w1.short = w.short ∧
      w1.trace = w.trace ++ [.openFile name] ∧
      w1.names name = some w.made ∧ (∀ p, p ≠ name → w1.names p = w.names p) ∧
      w1.made = w.made + 1 ∧ w1.holds w.nextFd = w.made ∧
      w1.data w.made = [] ∧ (∀ j, j ≠ w.made → w1.data j = w.data j) := by
  simp only [openFile, World.OpenFile, hr, hl, Bool.false_eq_true, if_false]
  refine ⟨_, _, rfl, ?_⟩
  simp [Ready, World.issue]
  refine ⟨?_, ?_⟩
  · intro p hp
    simp [hp]
  · intro j hj
    simp [hj]

theorem rotate_ok {Arg : Type} (lib : Lib Arg) (sep : Char) (st : LoggerState)
    (w : World) (f : File) (hist : Str)
    (hout : st.logOut = some f) (hday : st.currentDay ≠ lib.day w.now)
    (hhist : getHistoryFileName lib sep w.now f.name = .ok hist)
    (hren : ((w.Close f).Rename f.name hist).isSome = true)
    (hopen : w.refuses (.openFile f.name) = false) :
    ∃ st1 w1 i, checkDayChange lib sep st w = .ok (st1, w1) ∧
      Ready st1 w1 ⟨f.name, w.nextFd⟩ ∧
      st1.currentDay = lib.day w.now ∧ st1.logLevel = st.logLevel ∧
      st1.showFileName = st.showFileName ∧
      w1.now = w.now ∧ w1.refuses = w.refuses ∧ w1.short = w.short ∧
      w1.trace = w.trace ++ [.close f.fd, .rename f.name hist, .openFile f.name] ∧
      w.lookup f.name = some i ∧ i < w.made ∧ w1.lookup hist = some i ∧
      w1.lookup f.name = some w.made ∧ w1.holds w.nextFd = w.made ∧
      w1.data w.made = [] ∧ (∀ j, j ≠ w.made → w1.data j = w.data j) := by
  have hne := history_ne lib sep w.now f.name hist hhist
  rw [checkDayChange_due lib sep st w f hist hout hday hhist]
  obtain ⟨i, hi, hlt, _, hr⟩ := Rename_isSome (w.Close f) f.name hist hren
  have hlk : World.lookup { (w.Close f).issue (.rename f.name hist) with
      names := fun p => if p = hist then some i else if p = f.name then none
        else (w.Close f).names p } f.name = none := by
    simp [World.lookup, Ne.symm hne]
  obtain ⟨st1, w1, hopn, hR, hd, hl, hs, hn, hrf, hsh, htr, hnm, hnmo, hmade, hh, hd0, hdo⟩ :=
    openFile_new lib st { (w.Close f).issue (.rename f.name hist) with
      names := fun p => if p = hist then some i else if p = f.name then none
        else (w.Close f).names p } f.name hopen hlk
  have hnm' : w1.names f.name = some w.made := hnm
  have hmade' : w1.made = w.made + 1 := hmade
  have hhist' : w1.names hist = some i := by
    rw [hnmo hist hne]
    simp
  have hlt' : i < w.made := hlt
  refine ⟨st1, w1, i, by rw [hr]; exact hopn, hR, hd, hl, hs, hn, hrf, hsh, ?_, hi, hlt, ?_, ?_,
    hh, hd0, hdo⟩
  · rw [htr]
    simp [World.issue, World.Close]
  · exact lookup_of w1 hist i hhist' (by rw [hmade']; exact Nat.lt_succ_of_lt hlt')
  · exact lookup_of w1 f.name w.made hnm' (by rw [hmade']; exact Nat.lt_succ_self _)

theorem Write_trace (w : World) (f : File) (text : Str) :
    (w.Write f text).trace = w.trace ++ [.write f.fd text] := by
  unfold World.Write
  split <;> rfl

theorem Write_data_self (w : World) (f : File) (text : Str)
    (ho : w.isOpen f.fd = true) (hr : w.refuses (.write f.fd text) = false) :
    (w.Write f text).data (w.holds f.fd) = w.data (w.holds f.fd) ++ text := by
  simp [World.Write, ho, hr]

theorem Write_data_refused (w : World) (f : File) (text : Str)
    (ho : w.isOpen f.fd = true) (hr : w.refuses (.write f.fd text) = true) :
    (w.Write f text).data (w.holds f.fd) = w.data (w.holds f.fd) ++ text.take w.short := by
  simp [World.Write, ho, hr]

theorem Write_data_other (w : World) (f : File) (text : Str) (j : Nat)
    (hj : j ≠ w.holds f.fd) : (w.Write f text).data j = w.data j := by
  unfold World.Write
  split
  · simp [hj]
  · rfl

theorem Write_frame (w : World) (f : File) (text : Str) :
    (w.Write f text).isOpen = w.isOpen ∧ (w.Write f text).holds = w.holds ∧
    (w.Write f text).names = w.names ∧ (w.Write f text).made = w.made ∧
    (w.Write f text).now = w.now ∧ (w.Write f text).refuses = w.refuses := by
  unfold World.Write
  split
  · exact ⟨rfl, rfl, rfl, rfl, rfl, rfl⟩
  · exact ⟨rfl, rfl, rfl, rfl, rfl, rfl⟩

theorem Write_lookup (w : World) (f : File) (text p : Str) :
    (w.Write f text).lookup p = w.lookup p := by
  obtain ⟨_, _, h3, h4, _⟩ := Write_frame w f text
  unfold World.lookup
  rw [h3, h4]

theorem Ready_write {st : LoggerState} {w : World} {f : File} (h : Ready st w f) (text : Str) :
    Ready st (w.Write f text) f := by
  obtain ⟨h1, h2, h3, h4, h5⟩ := h
  exact ⟨h1, h2, h3, h4, by rw [(Write_frame w f text).1]; exact h5⟩

theorem Rename_some (w w2 : World) (a b : Str) (h : w.Rename a b = some w2) :
    w2.refuses = w.refuses ∧ w2.now = w.now ∧ w2.nextFd = w.nextFd := by
  obtain ⟨i, _, _, _, hr⟩ := Rename_isSome w a b (by rw [h]; rfl)
  rw [hr] at h
  cases h
  exact ⟨rfl, rfl, rfl⟩

theorem openFile_refused {Arg : Type} (lib : Lib Arg) (st : LoggerState) (w : World) (name : Str)
    (h : w.refuses (.openFile name) = true) : openFile lib st w name = .error .openFailed := by
  simp [openFile, World.OpenFile, h]

theorem rotate_rename_failed {Arg : Type} (lib : Lib Arg) (sep : Char) (st : LoggerState)
    (w : World) (f : File) (hist : Str)
    (hout : st.logOut = some f) (hday : st.currentDay ≠ lib.day w.now)
    (hhist : getHistoryFileName lib sep w.now f.name = .ok hist)
    (hren : ((w.Close f).Rename f.name hist).isSome = false) :
    checkDayChange lib sep st w = .error .renameFailed := by
  rw [checkDayChange_due lib sep st w f hist hout hday hhist]
  cases hr : (w.Close f).Rename f.name hist with
  | none => rfl
  | some w2 => simp [hr] at hren

theorem rotate_open_refused {Arg : Type} (lib : Lib Arg) (sep : Char) (st : LoggerState)
    (w : World) (f : File) (hist : Str)
    (hout : st.logOut = some f) (hday : st.currentDay ≠ lib.day w.now)
    (hhist : getHistoryFileName lib sep w.now f.name = .ok hist)
    (hren : ((w.Close f).Rename f.name hist).isSome = true)
    (hopen : w.refuses (.openFile f.name) = true) :
    checkDayChange lib sep st w = .error .openFailed := by
  rw [checkDayChange_due lib sep st w f hist hout hday hhist]
  cases hr : (w.Close f).Rename f.name hist with
  | none => simp [hr] at hren
  | some w2 =>
    have h2 := (Rename_some _ _ _ _ hr).1
    exact openFile_refused lib st w2 f.name (by rw [h2]; exact hopen)

theorem checkDayChange_ready {Arg : Type} (lib : Lib Arg) (sep : Char) (st st1 : LoggerState)
    (w w1 : World) (f : File) (hR : Ready st w f)
    (h : checkDayChange lib sep st w = .ok (st1, w1)) :
    ∃ f1, Ready st1 w1 f1 ∧ f1.name = f.name ∧ st1.showFileName = st.showFileName ∧
      st1.logLevel = st.logLevel ∧ w1.now = w.now := by
  by_cases hday : st.currentDay = lib.day w.now
  · rw [checkDayChange_same lib sep st w hday] at h
    cases h
    exact ⟨f, hR, rfl, rfl, rfl, rfl⟩
  · cases hh : getHistoryFileName lib sep w.now f.name with
    | error x => simp [checkDayChange, hday, hR.1, hh] at h
    | ok hist =>
      cases hr : ((w.Close f).Rename f.name hist).isSome with
      | false =>
        rw [rotate_rename_failed lib sep st w f hist hR.1 hday hh hr] at h
        cases h
      | true =>
        cases ho : w.refuses (.openFile f.name) with
        | true =>
          rw [rotate_open_refused lib sep st w f hist hR.1 hday hh hr ho] at h
          cases h
        | false =>
          obtain ⟨st2, w2, _, hck, hR2, _, hl, hs, hn, _⟩ :=
            rotate_ok lib sep st w f hist hR.1 hday hh hr ho
          rw [hck] at h
          cases h
          exact ⟨_, hR2, rfl, hs, hl, hn⟩

theorem checkDayChange_frame {Arg : Type} (lib : Lib Arg) (sep : Char) (st st1 : LoggerState)
    (w w1 : World) (f : File) (hR : Ready st w f)
    (h : checkDayChange lib sep st w = .ok (st1, w1)) :
    ∃ f1 calls, Ready st1 w1 f1 ∧
      w1.trace = w.trace ++ calls ∧ (∀ fd t, Call.write fd t ∉ calls) ∧
      (st.currentDay = lib.day w.now → calls = []) ∧
      w1.refuses = w.refuses ∧
      w1.holds f1.fd = (if st.currentDay = lib.day w.now then w.holds f.fd else w.made) ∧
      w1.data (w1.holds f1.fd)
        = (if st.currentDay = lib.day w.now then w.data (w.holds f.fd) else []) ∧
      ∀ j, j ≠ w1.holds f1.fd → w1.data j = w.data j := by
  by_cases hday : st.currentDay = lib.day w.now
  · rw [checkDayChange_same lib sep st w hday] at h
    cases h
    exact ⟨f, [], hR, by simp, by simp, fun _ => rfl, rfl, by rw [if_pos hday],
      by rw [if_pos hday], fun _ _ => rfl⟩
  · cases hh : getHistoryFileName lib sep w.now f.name with
    | error x => simp [checkDayChange, hday, hR.1, hh] at h
    | ok hist =>
      cases hr : ((w.Close f).Rename f.name hist).isSome with
      | false =>
        rw [rotate_rename_failed lib sep st w f hist hR.1 hday hh hr] at h
        cases h
      | true =>
        cases ho : w.refuses (.openFile f.name) with
        | true =>
          rw [rotate_open_refused lib sep st w f hist hR.1 hday hh hr ho] at h
          cases h
        | false =>
          obtain ⟨st2, w2, i, hck, hR2, _, _, _, _, hrf, _, htr, _, _, _, _, hh2, hd0, hdo⟩ :=
            rotate_ok lib sep st w f hist hR.1 hday hh hr ho
          rw [hck] at h
          cases h
          have hh2' : w1.holds (File.fd ⟨f.name, w.nextFd⟩) = w.made := hh2
          refine ⟨_, _, hR2, htr, by simp, fun hx => absurd hx hday, hrf, ?_, ?_, ?_⟩
          · rw [if_neg hday]; exact hh2
          · rw [if_neg hday, hh2']; exact hd0
          · intro j hj
            rw [hh2'] at hj
            exact hdo j hj

theorem Emit.run_of_check {Arg : Type} (e : Emit) (lib : Lib Arg) (sep : Char)
    (st st1 : LoggerState) (w w1 : World) (f1 : File) (stack : List Frame) (format : Str)
    (v : List Arg) (hgate : st.logLevel ≤ e.severity)
    (hcheck : checkDayChange lib sep st w = .ok (st1, w1)) (hR1 : Ready st1 w1 f1) :
    e.run lib sep st w stack format v =
      .ok (st1, w1.Write f1 (e.tag ++ lib.stamp w1.now ++
        endLine ( callerLocation st1.showFileName (resolvedCaller stack) ++ [' '] ++
          lib.sprintf format v))) := by
  rw [Emit.run_eq, if_pos hgate, hcheck]
  simp only [Emit.logger_of_ready e hR1, Logger.Printf, getPrefix_eq]

theorem Emit.run_below {Arg : Type} (e : Emit) (lib : Lib Arg) (sep : Char)
    (st : LoggerState) (w : World) (stack : List Frame) (format : Str)
    (v : List Arg) (hgate : e.severity < st.logLevel) :
    e.run lib sep st w stack format v = .ok (st, w) := by
  rw [Emit.run_eq, if_neg (not_le.2 hgate)]

theorem Emit.run_check_error {Arg : Type} (e : Emit) (lib : Lib Arg) (sep : Char)
    (st : LoggerState) (w : World) (stack : List Frame) (format : Str)
    (v : List Arg) (x : Panic) (hgate : st.logLevel ≤ e.severity)
    (hcheck : checkDayChange lib sep st w = .error x) :
    e.run lib sep st w stack format v = .error x := by
  rw [Emit.run_eq, if_pos hgate, hcheck]

theorem checkPath_fst (st : LoggerState) (w : World) (d : Str) :
    (checkPath st w d).1 = { st with logPath := d } := by
  unfold checkPath
  split <;> rfl

theorem Mkdir_snd (w : World) (d : Str) :
    (w.Mkdir d).2.cwd = w.cwd ∧ (w.Mkdir d).2.refuses = w.refuses ∧
    (w.Mkdir d).2.now = w.now ∧ (w.Mkdir d).2.nextFd = w.nextFd ∧
    (w.Mkdir d).2.trace = w.trace ++ [.mkdir d] := by
  by_cases h : d = [] ∨ w.present d = true ∨ w.refuses (.mkdir d) = true
  · simp [World.Mkdir, World.issue, h]
  · simp [World.Mkdir, World.issue, h]

theorem checkPath_snd (st : LoggerState) (w : World) (d : Str) :
    (checkPath st w d).2.cwd = w.cwd ∧ (checkPath st w d).2.refuses = w.refuses ∧
    (checkPath st w d).2.now = w.now ∧ (checkPath st w d).2.nextFd = w.nextFd ∧
    ∃ calls, (checkPath st w d).2.trace = w.trace ++ calls ∧ ∀ p, Call.openFile p ∉ calls := by
  by_cases h : w.present d = false
  · obtain ⟨h1, h2, h3, h4, h5⟩ := Mkdir_snd (w.issue (.stat d)) d
    have e : (checkPath st w d).2 = ((w.issue (.stat d)).Mkdir d).2 := by
      simp [checkPath, h]
    rw [e]
    exact ⟨h1, h2, h3, h4, [.stat d, .mkdir d], by rw [h5]; simp [World.issue], by simp⟩
  · have e : (checkPath st w d).2 = w.issue (.stat d) := by
      simp [checkPath, h]
    rw [e]
    exact ⟨rfl, rfl, rfl, rfl, [.stat d], rfl, by simp⟩

theorem SetFile_eq {Arg : Type} (lib : Lib Arg) (sep : Char) (st : LoggerState) (w : World)
    (d f : Str) :
    SetFile lib sep st w d f =
      match w.cwd with
      | none => .error .getwdFailed
      | some c =>
        openFile lib { st with logPath := d } ((checkPath st w d).2.issue .getwd)
          (c ++ [sep] ++ d ++ [sep] ++ checkHavePostfix f) := by
  unfold SetFile
  have h1 := checkPath_fst st w d
  have h2 := (checkPath_snd st w d).1
  rcases hcp : checkPath st w d with ⟨a, b⟩
  rw [hcp] at h1 h2
  simp only at h1 h2
  subst h1
  simp only [getFullName, h2]
  cases w.cwd <;> rfl

theorem openFile_ok {Arg : Type} (lib : Lib Arg) (st : LoggerState) (w : World) (name : Str)
    (h : w.refuses (.openFile name) = false) :
    ∃ st1 w1, openFile lib st w name = .ok (st1, w1) ∧
      Ready st1 w1 ⟨name, w.nextFd⟩ ∧ st1.currentDay = lib.day w.now ∧
      w1.trace = w.trace ++ [.openFile name] ∧ w1.cwd = w.cwd := by
  simp only [openFile, World.OpenFile, h, Bool.false_eq_true, if_false]
  cases w.lookup name with
  | none =>
    refine ⟨_, _, rfl, ?_⟩
    simp [Ready, World.issue]
  | some i =>
    refine ⟨_, _, rfl, ?_⟩
    simp [Ready, World.issue]

theorem SetFile_isOk {Arg : Type} (lib : Lib Arg) (sep : Char) (st : LoggerState) (w : World)
    (d f : Str) (h : (SetFile lib sep st w d f).isOk = true) :
    ∃ c, w.cwd = some c ∧
      w.refuses (.openFile (c ++ [sep] ++ d ++ [sep] ++ checkHavePostfix f)) = false := by
  rw [SetFile_eq] at h
  cases hc : w.cwd with
  | none => rw [hc] at h; cases h
  | some c =>
    refine ⟨c, rfl, ?_⟩
    rw [hc] at h
    dsimp only at h
    cases hr : w.refuses (.openFile (c ++ [sep] ++ d ++ [sep] ++ checkHavePostfix f)) with
    | false => rfl
    | true =>
      rw [openFile_refused lib _ _ _ (by
        show (checkPath st w d).2.refuses _ = true
        rw [(checkPath_snd st w d).2.1]; exact hr)] at h
      cases h

theorem SetFile_ok {Arg : Type} (lib : Lib Arg) (sep : Char) (st : LoggerState) (w : World)
    (d f c : Str) (hc : w.cwd = some c)
    (hr : w.refuses (.openFile (c ++ [sep] ++ d ++ [sep] ++ checkHavePostfix f)) = false) :
    ∃ st1 w1 calls, SetFile lib sep st w d f = .ok (st1, w1) ∧
      Ready st1 w1 ⟨c ++ [sep] ++ d ++ [sep] ++ checkHavePostfix f, w.nextFd⟩ ∧
      st1.currentDay = lib.day w.now ∧
      w1.trace = w.trace ++ calls ++
        [.getwd, .openFile (c ++ [sep] ++ d ++ [sep] ++ checkHavePostfix f)] ∧
      (∀ p, Call.openFile p ∉ calls) ∧ w1.cwd = w.cwd := by
  obtain ⟨h1, h2, h3, h4, calls, h5, h6⟩ := checkPath_snd st w d
  obtain ⟨st1, w1, ho, hR, hday, htr, hcwd⟩ :=
    openFile_ok lib { st with logPath := d } ((checkPath st w d).2.issue .getwd)
      (c ++ [sep] ++ d ++ [sep] ++ checkHavePostfix f) (by
        show (checkPath st w d).2.refuses _ = false
        rw [h2]; exact hr)
  refine ⟨st1, w1, calls, ?_, ?_, ?_, ?_, h6, ?_⟩
  · rw [SetFile_eq, hc]; exact ho
  · have : ((checkPath st w d).2.issue .getwd).nextFd = w.nextFd := h4
    rw [this] at hR; exact hR
  · have : ((checkPath st w d).2.issue .getwd).now = w.now := h3
    rw [this] at hday; exact hday
  · rw [htr]
    show ((checkPath st w d).2.trace ++ [Call.getwd]) ++ _ = _
    rw [h5]; simp
  · rw [hcwd]; exact h1

theorem emit_same_day {Arg : Type} (e : Emit) (lib : Lib Arg) (sep : Char)
    (st : LoggerState) (w : World) (f : File) (stack : List Frame) (format : Str)
    (v : List Arg) (hR : Ready st w f) (hday : st.currentDay = lib.day w.now) :
    ∃ st2 w2, e.run lib sep st w stack format v = .ok (st2, w2) ∧
      renames (w2.trace.drop w.trace.length) = [] ∧ st2.currentDay = st.currentDay := by
  by_cases hg : st.logLevel ≤ e.severity
  · refine ⟨st, _, Emit.run_of_check e lib sep st st w w f stack format v hg
      (checkDayChange_same lib sep st w hday) hR, ?_, rfl⟩
    rw [Write_trace]
    simp [renames]
  · refine ⟨st, w, Emit.run_below e lib sep st w stack format v (not_le.1 hg), ?_, rfl⟩
    simp [renames]

/-! ## The extension rule -/

/-- C3. Extension rule: `checkHavePostfix f` is `f ++ ".log"` when `f` holds no
`.` and `f` itself when it holds one, so `test` becomes `test.log` and
`test.txt` stays; the result always holds a `.`, and applying the function
twice gives what applying it once gives. -/
theorem checkHavePostfix_rule (f : Str) :
    checkHavePostfix f = (if '.' ∈ f then f else f ++ ".log".toList) ∧
    checkHavePostfix "test".toList = "test.log".toList ∧
    checkHavePostfix "test.txt".toList = "test.txt".toList ∧
    '.' ∈ checkHavePostfix f ∧
    checkHavePostfix (checkHavePostfix f) = checkHavePostfix f := by
  have key : ∀ g : Str, checkHavePostfix g = (if '.' ∈ g then g else g ++ ".log".toList) := by
    intro g
    unfold checkHavePostfix
    by_cases hg : '.' ∈ g
    · rw [if_neg (fun e => (Index_single_eq_neg_one '.' g).1 e hg), if_pos hg]
    · rw [if_pos ((Index_single_eq_neg_one '.' g).2 hg), if_neg hg]
  have hdot : '.' ∈ checkHavePostfix f := by
    rw [key f]
    by_cases hf : '.' ∈ f
    · rw [if_pos hf]; exact hf
    · rw [if_neg hf]; simp
  refine ⟨key f, by decide, by decide, hdot, ?_⟩
  rw [key (checkHavePostfix f), if_pos hdot]

/-! ## The history name -/

/-- C5. History name: for every path `p` that holds a path separator and every
rotation instant `t`, `getHistoryFileName` returns `p ++ "." ++ D`, with `D` the
local date of `t` minus 24 hours in the layout `2006-01-02`: directory and full
name are kept and only the date is added.  Every file `SetFile` opens has a
name that holds a separator. -/
theorem history_name {Arg : Type} (lib : Lib Arg) (sep : Char) (t : Int) (p : Str)
    (h : sep ∈ p) :
    getHistoryFileName lib sep t p = .ok (p ++ ['.'] ++ lib.date (t - 24 * 3600)) ∧
    ∀ (st st1 : LoggerState) (w w1 : World) (d f : Str),
      SetFile lib sep st w d f = .ok (st1, w1) → ∃ g, st1.logOut = some g ∧ sep ∈ g.name := by
  refine ⟨getHistoryFileName_of_mem lib sep t p h, ?_⟩
  intro st st1 w w1 d f hs
  obtain ⟨c, hc, hr⟩ := SetFile_isOk lib sep st w d f (by rw [hs]; rfl)
  obtain ⟨st2, w2, _, hok, hR, _⟩ := SetFile_ok lib sep st w d f c hc hr
  rw [hs] at hok
  cases hok
  exact ⟨_, hR.1, by simp⟩

/-- At 2024-01-05 10:04:05 UTC the history name of `/home/u/logs/test.log` ends
in `.2024-01-04`. -/
theorem history_name_witness :
    '/' ∈ "/home/u/logs/test.log".toList ∧
    getHistoryFileName utc '/' jan5 "/home/u/logs/test.log".toList
      = .ok "/home/u/logs/test.log.2024-01-04".toList :=
  ⟨by decide, (history_name utc '/' jan5 "/home/u/logs/test.log".toList (by decide)).1⟩

/-! ## Failure modes of the filename helpers -/

/-- C6, as the claim states it, fails: on the name `test.log`, which holds no
path separator, `getHistoryFileName` aborts with a slice bound out of range
(`filename[:-1]`); so it does on the empty string. -/
theorem getHistoryFileName_aborts :
    getHistoryFileName utc '/' jan5 "test.log".toList = .error .sliceBounds ∧
    getHistoryFileName utc '/' jan5 [] = .error .sliceBounds :=
  ⟨rfl, rfl⟩

/-- C6, amended. `checkHavePostfix` returns for every string, its argument
kept as the head of the result; `getHistoryFileName` returns a string for every
input that holds at least one path separator. -/
theorem helpers_return {Arg : Type} (lib : Lib Arg) (sep : Char) (t : Int) (p : Str)
    (h : sep ∈ p) :
    (∀ f : Str, ∃ r, checkHavePostfix f = r ∧ f <+: r) ∧
    ∃ r, getHistoryFileName lib sep t p = .ok r := by
  refine ⟨?_, _, getHistoryFileName_of_mem lib sep t p h⟩
  intro f
  refine ⟨_, rfl, ?_⟩
  unfold checkHavePostfix
  split
  · exact List.prefix_append _ _
  · exact List.prefix_refl _

/-- A path with a separator and the empty string put through the helpers. -/
theorem helpers_return_witness :
    '/' ∈ "logs/test".toList ∧
    (∃ r, checkHavePostfix [] = r ∧ [] <+: r) ∧
    ∃ r, getHistoryFileName utc '/' jan5 "logs/test".toList = .ok r :=
  ⟨by decide,
    (helpers_return utc '/' jan5 "logs/test".toList (by decide)).1 [],
    (helpers_return utc '/' jan5 "logs/test".toList (by decide)).2⟩

/-! ## Level gating -/

/-- C1, as the claim states it, fails, in two ways.  First: the logger holds an
open file whose name has been removed from the disk, the recorded day (5) is
not today's (6) and `Info` passes the level test; the rename of the rotation
fails, the call aborts and no line is appended.  Second: no rotation is due,
`Info` passes the level test and the system turns the write down; `Printf`
drops the error, the call returns and the log file holds what it held.  Third:
the write is taken and the message holds a line break; the log file, of one
line before the call, is of three lines after it. -/
theorem level_gating_counterexample :
    (Ready (sampleState 0 5) (sampleWorld jan6 none fun _ => false) sampleFile ∧
      (sampleState 0 5).logLevel ≤ Emit.info.severity ∧
      Emit.info.run utc '/' (sampleState 0 5) (sampleWorld jan6 none fun _ => false)
        [mainFrame] "hello".toList [] = .error .renameFailed) ∧
    (Ready (sampleState 0 5) (sampleWorld jan5 (some "old\n".toList) writesRefused) sampleFile ∧
      (sampleState 0 5).logLevel ≤ Emit.info.severity ∧
      (match Emit.info.run utc '/' (sampleState 0 5)
          (sampleWorld jan5 (some "old\n".toList) writesRefused) [mainFrame] "hello".toList [] with
        | .ok (_, w2) => w2.read sampleFile.name
        | .error _ => none) = some "old\n".toList) ∧
    (match Emit.info.run utc '/' (sampleState 0 5)
        (sampleWorld jan5 (some "old\n".toList) fun _ => false) [mainFrame] "a\nb".toList [] with
      | .ok (_, w2) => (w2.read sampleFile.name).map fun c => c.count '\n'
      | .error _ => none) = some 3 :=
  ⟨⟨by decide, by decide, rfl⟩, ⟨by decide, by decide, by decide⟩, by decide⟩

/-- C1, amended. For every minimum level, every emit operation, format and
arguments and every logger state with an open file.  When the severity is at
or above the minimum and the rotation check returns, the call returns having
made exactly one write, of one record that ends in a line break, through the
descriptor of the file the logger then holds: the file it held before when no
rotation was due, a file that did not exist before otherwise.  When the system
takes that write, that file holds what it held before the call (nothing, for
the new file) followed by exactly that record, and every other file holds what
it held.  When the rotation check aborts, the call aborts with it.  When the
severity is below the minimum, the call issues no file operation and leaves
state and file system as they are. -/
theorem level_gating {Arg : Type} (e : Emit) (lib : Lib Arg) (sep : Char) (st : LoggerState)
    (w : World) (f : File) (stack : List Frame) (format : Str) (v : List Arg)
    (hR : Ready st w f) :
    (st.logLevel ≤ e.severity →
      (∀ st1 w1, checkDayChange lib sep st w = .ok (st1, w1) →
        ∃ f1 text w2 calls,
          st1.logOut = some f1 ∧
          e.run lib sep st w stack format v = .ok (st1, w2) ∧
          w2.trace = w.trace ++ calls ++ [.write f1.fd text] ∧
          (∀ fd t, Call.write fd t ∉ calls) ∧
          (st.currentDay = lib.day w.now → calls = []) ∧
          text.getLast? = some '\n' ∧
          w2.isOpen f1.fd = true ∧
          w2.holds f1.fd = (if st.currentDay = lib.day w.now then w.holds f.fd else w.made) ∧
          (w.refuses (.write f1.fd text) = false →
            w2.data (w2.holds f1.fd)
              = (if st.currentDay = lib.day w.now then w.data (w.holds f.fd) else []) ++ text ∧
            ∀ j, j ≠ w2.holds f1.fd → w2.data j = w.data j)) ∧
      (∀ x, checkDayChange lib sep st w = .error x →
        e.run lib sep st w stack format v = .error x)) ∧
    (e.severity < st.logLevel → e.run lib sep st w stack format v = .ok (st, w)) := by
  refine ⟨fun hgate => ⟨?_, ?_⟩, fun hlow => Emit.run_below e lib sep st w stack format v hlow⟩
  · intro st1 w1 hcheck
    obtain ⟨f1, calls, hR1, htr, hnw, hnil, hrf, hholds, hdata, hother⟩ :=
      checkDayChange_frame lib sep st st1 w w1 f hR hcheck
    obtain ⟨text, htext⟩ : ∃ text, text = e.tag ++ lib.stamp w1.now ++
        endLine ( callerLocation st1.showFileName (resolvedCaller stack) ++ [' '] ++
          lib.sprintf format v) := ⟨_, rfl⟩
    have hrun := Emit.run_of_check e lib sep st st1 w w1 f1 stack format v hgate hcheck hR1
    rw [← htext] at hrun
    obtain ⟨hfo, hfh, _⟩ := Write_frame w1 f1 text
    refine ⟨f1, text, w1.Write f1 text, calls, hR1.1, hrun, ?_, hnw, hnil, ?_, ?_, ?_, ?_⟩
    · rw [Write_trace, htr]
    · rw [htext]; exact record_getLast _ _ _
    · rw [hfo]; exact hR1.2.2.2.2
    · rw [hfh]; exact hholds
    · intro hw
      rw [hfh]
      refine ⟨?_, ?_⟩
      · rw [Write_data_self w1 f1 text hR1.2.2.2.2 (by rw [hrf]; exact hw), hdata]
      · intro j hj
        rw [Write_data_other w1 f1 text j hj]
        exact hother j hj
  · intro x hx
    exact Emit.run_check_error e lib sep st w stack format v x hgate hx

/-- On 2024-01-05, the level at Info and the log file holding `old`: `Info`
appends one record to the file and `Debug` does nothing. -/
theorem level_gating_witness :
    Ready (sampleState 1 5) (sampleWorld jan5 (some "old\n".toList) fun _ => false) sampleFile ∧
    (∃ text w2, Emit.info.run utc '/' (sampleState 1 5)
        (sampleWorld jan5 (some "old\n".toList) fun _ => false) [mainFrame]
        "hello world %s".toList ["test".toList] = .ok (sampleState 1 5, w2) ∧
      w2.trace = [.write 3 text] ∧
      text.getLast? = some '\n' ∧
      w2.data 0 = "old\n".toList ++ text) ∧
    Emit.debug.run utc '/' (sampleState 1 5)
        (sampleWorld jan5 (some "old\n".toList) fun _ => false) [mainFrame]
        "hello world %s".toList ["test".toList]
      = .ok (sampleState 1 5, sampleWorld jan5 (some "old\n".toList) fun _ => false) := by
  obtain ⟨f1, text, w2, calls, hout, hrun, htr, _, hnil, hlast, _, hholds, hdata⟩ :=
    ((level_gating Emit.info utc '/' (sampleState 1 5)
      (sampleWorld jan5 (some "old\n".toList) fun _ => false) sampleFile [mainFrame]
      "hello world %s".toList ["test".toList] (by decide)).1 (by decide)).1
      (sampleState 1 5) (sampleWorld jan5 (some "old\n".toList) fun _ => false) rfl
  have e1 : f1 = sampleFile := (Option.some.inj hout).symm
  subst e1
  have hc : calls = [] := hnil (by decide)
  subst hc
  have hh : w2.holds sampleFile.fd = 0 := hholds.trans (by decide)
  have hd := (hdata rfl).1
  rw [hh] at hd
  exact ⟨by decide, ⟨text, w2, hrun, htr, hlast, hd⟩,
    (level_gating Emit.debug utc '/' (sampleState 1 5)
      (sampleWorld jan5 (some "old\n".toList) fun _ => false) sampleFile [mainFrame]
      "hello world %s".toList ["test".toList] (by decide)).2 (by decide)⟩

/-! ## Rotation -/

/-- C2, as the claim states it, fails, in two ways; in both the recorded day (5)
is not today's (6), `Info` passes the level test and the rename succeeds.
First: the system refuses to open the original name again; `openFile` aborts,
and no file at the original name holds the line.  Second: the original name is
opened again and the system turns the write down; `Printf` drops the error, the
call returns and the new file at the original name is empty. -/
theorem rotation_correct_counterexample :
    (Ready (sampleState 0 5)
        (sampleWorld jan6 (some "old\n".toList) fun c => c = .openFile sampleFile.name)
        sampleFile ∧
      (sampleState 0 5).currentDay ≠ utc.day jan6 ∧
      (((sampleWorld jan6 (some "old\n".toList) fun c => c = .openFile sampleFile.name).Close
          sampleFile).Rename sampleFile.name "/home/u/logs/test.log.2024-01-05".toList).isSome
        = true ∧
      Emit.info.run utc '/' (sampleState 0 5)
        (sampleWorld jan6 (some "old\n".toList) fun c => c = .openFile sampleFile.name)
        [mainFrame] "hello".toList [] = .error .openFailed) ∧
    (Ready (sampleState 0 5) (sampleWorld jan6 (some "old\n".toList) writesRefused) sampleFile ∧
      (((sampleWorld jan6 (some "old\n".toList) writesRefused).Close
          sampleFile).Rename sampleFile.name "/home/u/logs/test.log.2024-01-05".toList).isSome
        = true ∧
      (match Emit.info.run utc '/' (sampleState 0 5)
          (sampleWorld jan6 (some "old\n".toList) writesRefused) [mainFrame] "hello".toList [] with
        | .ok (_, w2) => w2.read sampleFile.name
        | .error _ => none) = some []) :=
  ⟨⟨by decide, by decide, rfl, rfl⟩, ⟨by decide, rfl, by decide⟩⟩

/-- C2, amended. For every logger state with an open file whose recorded day
differs from the current local day-of-month at an emit call that passes the
level test, and for which the rename succeeds, the original name can be
opened again and the system takes the write of the record: the call performs
exactly one rename, to the original name followed by `.` and the date of 24
hours earlier; afterwards the history name leads to the file the original name
led to, holding what it held before the call; the original name leads to a
file that did not exist before, holding the one record just emitted and
nothing else; and the recorded day is the current day-of-month, so that a
further emit call on a day with that day-of-month performs no rename. -/
theorem rotation_correct {Arg : Type} (e : Emit) (lib : Lib Arg) (sep : Char)
    (st : LoggerState) (w : World) (f : File) (hist : Str) (stack : List Frame) (format : Str)
    (v : List Arg)
    (hR : Ready st w f) (hgate : st.logLevel ≤ e.severity)
    (hday : st.currentDay ≠ lib.day w.now)
    (hhist : getHistoryFileName lib sep w.now f.name = .ok hist)
    (hren : ((w.Close f).Rename f.name hist).isSome = true)
    (hopen : w.refuses (.openFile f.name) = false)
    (hwrite : w.refuses (.write w.nextFd (e.tag ++ lib.stamp w.now ++
      endLine ( callerLocation st.showFileName (resolvedCaller stack) ++ [' '] ++
        lib.sprintf format v))) = false) :
    ∃ st1 w1 text,
      e.run lib sep st w stack format v = .ok (st1, w1) ∧
      hist = f.name ++ ['.'] ++ lib.date (w.now - 24 * 3600) ∧
      w1.trace = w.trace ++
        [.close f.fd, .rename f.name hist, .openFile f.name, .write w.nextFd text] ∧
      (renames (w1.trace.drop w.trace.length)).length = 1 ∧
      (w.read f.name).isSome = true ∧
      w1.lookup hist = w.lookup f.name ∧
      w1.read hist = w.read f.name ∧
      w1.lookup f.name = some w.made ∧
      w1.read f.name = some text ∧
      text = e.tag ++ lib.stamp w.now ++
        endLine ( callerLocation st.showFileName (resolvedCaller stack) ++ [' '] ++
          lib.sprintf format v) ∧
      st1.currentDay = lib.day w.now ∧
      ∀ (e2 : Emit) (t2 : Int) (stack2 : List Frame) (format2 : Str) (v2 : List Arg),
        lib.day t2 = lib.day w.now →
        ∃ st2 w2, e2.run lib sep st1 { w1 with now := t2 } stack2 format2 v2 = .ok (st2, w2) ∧
          renames (w2.trace.drop w1.trace.length) = [] ∧ st2.currentDay = st1.currentDay := by
  obtain ⟨st1, w1, i, hck, hR1, hd1, _, hs1, hn1, hrf, _, htr1, hli, hlt, hlh, hln, hh, hd0, hdo⟩ :=
    rotate_ok lib sep st w f hist hR.1 hday hhist hren hopen
  have hrun := Emit.run_of_check e lib sep st st1 w w1 _ stack format v hgate hck hR1
  rw [hn1, hs1] at hrun
  obtain ⟨text, htext⟩ : ∃ text, text = e.tag ++ lib.stamp w.now ++
      endLine ( callerLocation st.showFileName (resolvedCaller stack) ++ [' '] ++
        lib.sprintf format v) := ⟨_, rfl⟩
  rw [← htext] at hrun hwrite
  have hh' : w1.holds (File.fd ⟨f.name, w.nextFd⟩) = w.made := hh
  have hw1 : w1.refuses (.write (File.fd ⟨f.name, w.nextFd⟩) text) = false := by
    rw [hrf]; exact hwrite
  have hself := Write_data_self w1 ⟨f.name, w.nextFd⟩ text hR1.2.2.2.2 hw1
  rw [hh', hd0] at hself
  have hother : (w1.Write ⟨f.name, w.nextFd⟩ text).data i = w.data i := by
    rw [Write_data_other w1 ⟨f.name, w.nextFd⟩ text i (by rw [hh']; exact Nat.ne_of_lt hlt)]
    exact hdo i (Nat.ne_of_lt hlt)
  refine ⟨st1, w1.Write ⟨f.name, w.nextFd⟩ text, text, hrun,
    (getHistoryFileName_ok lib sep w.now f.name hist hhist).2, ?_, ?_, ?_, ?_, ?_, ?_, ?_,
    htext, hd1, ?_⟩
  · rw [Write_trace, htr1]; simp
  · rw [Write_trace, htr1]; simp [renames]
  · simp [World.read, hli]
  · rw [Write_lookup, hlh, hli]
  · simp only [World.read, Write_lookup, hlh, hli, Option.map_some', hother]
  · rw [Write_lookup, hln]
  · simp only [World.read, Write_lookup, hln, Option.map_some', hself, List.nil_append]
  · intro e2 t2 stack2 format2 v2 ht2
    exact emit_same_day e2 lib sep st1 { (w1.Write ⟨f.name, w.nextFd⟩ text) with now := t2 }
      ⟨f.name, w.nextFd⟩ stack2 format2 v2 (Ready_write hR1 text)
      (show st1.currentDay = lib.day t2 by rw [hd1, ht2])

/-- On 2024-01-06, with the recorded day 5 and the log file holding `old`:
`Info` moves the file to the name ending in `.2024-01-05`, and the original
name holds the new record alone. -/
theorem rotation_correct_witness :
    Ready (sampleState 0 5) (sampleWorld jan6 (some "old\n".toList) fun _ => false) sampleFile ∧
    (sampleState 0 5).logLevel ≤ Emit.info.severity ∧
    (sampleState 0 5).currentDay ≠
      utc.day (sampleWorld jan6 (some "old\n".toList) fun _ => false).now ∧
    getHistoryFileName utc '/' (sampleWorld jan6 (some "old\n".toList) fun _ => false).now
      sampleFile.name = .ok "/home/u/logs/test.log.2024-01-05".toList ∧
    ∃ st1 w1,
      Emit.info.run utc '/' (sampleState 0 5)
        (sampleWorld jan6 (some "old\n".toList) fun _ => false) [mainFrame] "hello".toList []
        = .ok (st1, w1) ∧
      w1.read "/home/u/logs/test.log.2024-01-05".toList = some "old\n".toList ∧
      w1.read sampleFile.name
        = some "[INFO] 2024/01/06 10:04:05 main.main:10 hello\n".toList ∧
      st1.currentDay = 6 := by
  obtain ⟨st1, w1, text, hrun, _, _, _, _, _, hf1, _, hf2, htext, hd, _⟩ :=
    rotation_correct Emit.info utc '/' (sampleState 0 5)
      (sampleWorld jan6 (some "old\n".toList) fun _ => false) sampleFile
      "/home/u/logs/test.log.2024-01-05".toList [mainFrame] "hello".toList []
      (by decide) (by decide) (by decide) rfl rfl rfl rfl
  refine ⟨by decide, by decide, by decide, rfl, st1, w1, hrun, ?_, ?_, ?_⟩
  · rw [hf1]; decide
  · rw [hf2, htext]; decide
  · rw [hd]; rfl

/-! ## The rotation trigger -/

/-- C9, as the claim states it, fails: the logger holds an open file, the
recorded day (5) is not today's (6), and the system refuses the rename; the
check closes the file and aborts, and the file is not opened again. -/
theorem rotation_trigger_counterexample :
    Ready (sampleState 0 5)
      (sampleWorld jan6 (some "old\n".toList) fun c =>
        c = .rename sampleFile.name "/home/u/logs/test.log.2024-01-05".toList) sampleFile ∧
    (sampleState 0 5).currentDay ≠ utc.day jan6 ∧
    checkDayChange utc '/' (sampleState 0 5)
      (sampleWorld jan6 (some "old\n".toList) fun c =>
        c = .rename sampleFile.name "/home/u/logs/test.log.2024-01-05".toList)
      = .error .renameFailed :=
  ⟨by decide, by decide, rfl⟩

/-- C9, amended. For every logger state with an open file and every current
local time: `checkDayChange` returns with state, file handle and file system
unchanged and no call issued if and only if the recorded day-of-month equals
the current local day-of-month, whatever the full dates are; when the two
differ, it closes the file and tries the rename to the history name: it aborts
when the rename fails, aborts when the rename succeeds and the file cannot be
opened again, and otherwise has issued exactly close, rename and open, and has
recorded the current day-of-month. -/
theorem rotation_trigger {Arg : Type} (lib : Lib Arg) (sep : Char) (st : LoggerState)
    (w : World) (f : File) (hR : Ready st w f) :
    (checkDayChange lib sep st w = .ok (st, w) ↔ st.currentDay = lib.day w.now) ∧
    (st.currentDay ≠ lib.day w.now →
      ∀ hist, getHistoryFileName lib sep w.now f.name = .ok hist →
        (((w.Close f).Rename f.name hist).isSome = false →
          checkDayChange lib sep st w = .error .renameFailed) ∧
        (((w.Close f).Rename f.name hist).isSome = true →
          w.refuses (.openFile f.name) = true →
          checkDayChange lib sep st w = .error .openFailed) ∧
        (((w.Close f).Rename f.name hist).isSome = true →
          w.refuses (.openFile f.name) = false →
          ∃ st1 w1, checkDayChange lib sep st w = .ok (st1, w1) ∧
            w1.trace = w.trace ++ [.close f.fd, .rename f.name hist, .openFile f.name] ∧
            st1.currentDay = lib.day w.now ∧ Ready st1 w1 ⟨f.name, w.nextFd⟩)) := by
  refine ⟨⟨?_, checkDayChange_same lib sep st w⟩, ?_⟩
  · intro h
    by_contra hday
    cases hh : getHistoryFileName lib sep w.now f.name with
    | error x => simp [checkDayChange, hday, hR.1, hh] at h
    | ok hist =>
      cases hr : ((w.Close f).Rename f.name hist).isSome with
      | false =>
        rw [rotate_rename_failed lib sep st w f hist hR.1 hday hh hr] at h
        cases h
      | true =>
        cases ho : w.refuses (.openFile f.name) with
        | true =>
          rw [rotate_open_refused lib sep st w f hist hR.1 hday hh hr ho] at h
          cases h
        | false =>
          obtain ⟨st2, w2, _, hck, _, _, _, _, _, _, _, htr, _⟩ :=
            rotate_ok lib sep st w f hist hR.1 hday hh hr ho
          rw [hck] at h
          cases h
          have := congrArg List.length htr
          simp at this
  · intro hday hist hh
    refine ⟨fun hr => rotate_rename_failed lib sep st w f hist hR.1 hday hh hr,
      fun hr ho => rotate_open_refused lib sep st w f hist hR.1 hday hh hr ho, ?_⟩
    intro hr ho
    obtain ⟨st2, w2, _, hck, hR2, hd, _, _, _, _, _, htr, _⟩ :=
      rotate_ok lib sep st w f hist hR.1 hday hh hr ho
    exact ⟨st2, w2, hck, htr, hd, hR2⟩

/-- A file opened on 2024-01-05 is left alone on 2024-02-05, the same
day-of-month a month later, and is rotated on 2024-01-06. -/
theorem rotation_trigger_witness :
    Ready (sampleState 0 5) (sampleWorld feb5 (some "old\n".toList) fun _ => false) sampleFile ∧
    utc.date jan5 ≠ utc.date feb5 ∧
    checkDayChange utc '/' (sampleState 0 5)
        (sampleWorld feb5 (some "old\n".toList) fun _ => false)
      = .ok (sampleState 0 5, sampleWorld feb5 (some "old\n".toList) fun _ => false) ∧
    ∃ st1 w1,
      checkDayChange utc '/' (sampleState 0 5)
        (sampleWorld jan6 (some "old\n".toList) fun _ => false) = .ok (st1, w1) ∧
      w1.trace = [.close 3, .rename sampleFile.name "/home/u/logs/test.log.2024-01-05".toList,
        .openFile sampleFile.name] ∧
      st1.currentDay = 6 := by
  obtain ⟨st1, w1, hck, htr, hd, _⟩ :=
    ((rotation_trigger utc '/' (sampleState 0 5)
      (sampleWorld jan6 (some "old\n".toList) fun _ => false) sampleFile (by decide)).2
      (by decide) "/home/u/logs/test.log.2024-01-05".toList rfl).2.2 rfl rfl
  exact ⟨by decide, by decide,
    (rotation_trigger utc '/' (sampleState 0 5)
      (sampleWorld feb5 (some "old\n".toList) fun _ => false) sampleFile (by decide)).1.2
      (by decide),
    st1, w1, hck, htr, hd⟩

/-! ## Layout of a log line -/

/-- C8. Log line layout and caller location: an emit call that passes the
level test, and whose rotation check returns, writes the level tag of the
operation called (`[DEBUG] `, `[INFO] ` or `[ERROR] `), the time stamp, and
then `L ++ " " ++ Sprintf(format, args)` closed by a line break, where `L` is
`function:line` of the frame that invoked the operation, or
`file->function:line` when `showFileName` is set; when that frame cannot be
resolved, the function name is empty and the line number is 0. -/
theorem log_line_layout {Arg : Type} (e : Emit) (lib : Lib Arg) (sep : Char)
    (st st1 : LoggerState) (w w1 : World) (f : File) (stack : List Frame) (format : Str)
    (v : List Arg)
    (hR : Ready st w f) (hgate : st.logLevel ≤ e.severity)
    (hcheck : checkDayChange lib sep st w = .ok (st1, w1)) :
    (∃ f1 w2, st1.logOut = some f1 ∧
      e.run lib sep st w stack format v = .ok (st1, w2) ∧
      w2.trace = w1.trace ++ [.write f1.fd (e.tag ++ lib.stamp w.now ++
        endLine ( callerLocation st.showFileName (resolvedCaller stack) ++ [' '] ++
          lib.sprintf format v))]) ∧
    e.tag = (match e with
      | .debug => "[DEBUG] ".toList
      | .info => "[INFO] ".toList
      | .error => "[ERROR] ".toList) ∧
    getPrefix st (e.here :: stack) = callerLocation st.showFileName (resolvedCaller stack) ∧
    (∀ fr rest, stack = fr :: rest →
      callerLocation st.showFileName (resolvedCaller stack) =
        if st.showFileName = true then fr.file ++ "->".toList ++ fr.fn ++ [':'] ++ itoa fr.line
        else fr.fn ++ [':'] ++ itoa fr.line) ∧
    (stack = [] →
      getCallTrace [⟨loggerFile, "logger.getPrefix".toList, 105⟩, e.here] = ([], [], 0) ∧
      callerLocation st.showFileName (resolvedCaller stack) =
        if st.showFileName = true then "->:0".toList else ":0".toList) := by
  obtain ⟨f1, hR1, _, hs, _, hn⟩ := checkDayChange_ready lib sep st st1 w w1 f hR hcheck
  have hrun := Emit.run_of_check e lib sep st st1 w w1 f1 stack format v hgate hcheck hR1
  rw [hs, hn] at hrun
  refine ⟨⟨f1, _, hR1.1, hrun, Write_trace _ _ _⟩, ?_, getPrefix_eq st _ stack, ?_, ?_⟩
  · cases e <;> rfl
  · intro fr rest hst
    subst hst
    rfl
  · intro hst
    subst hst
    refine ⟨rfl, ?_⟩
    cases st.showFileName <;> rfl

/-- With file names shown, `Info` called from line 10 of `main.main` writes
`main.go->main.main:10` before the message, and `->:0` when no caller frame
can be resolved. -/
theorem log_line_layout_witness :
    Ready (SetShowFileName (sampleState 0 5) true)
      (sampleWorld jan5 (some []) fun _ => false) sampleFile ∧
    (∃ w2, Emit.info.run utc '/' (SetShowFileName (sampleState 0 5) true)
        (sampleWorld jan5 (some []) fun _ => false) [mainFrame]
        "hello world %s".toList ["test".toList]
        = .ok (SetShowFileName (sampleState 0 5) true, w2) ∧
      w2.trace = [.write 3
        "[INFO] 2024/01/05 10:04:05 main.go->main.main:10 hello world test\n".toList]) ∧
    (∃ w2, Emit.error.run utc '/' (SetShowFileName (sampleState 0 5) true)
        (sampleWorld jan5 (some []) fun _ => false) []
        "hello".toList []
        = .ok (SetShowFileName (sampleState 0 5) true, w2) ∧
      w2.trace = [.write 3 "[ERROR] 2024/01/05 10:04:05 ->:0 hello\n".toList]) := by
  obtain ⟨⟨f1, w2, hf1, hrun, htr⟩, _⟩ :=
    log_line_layout Emit.info utc '/' (SetShowFileName (sampleState 0 5) true)
      (SetShowFileName (sampleState 0 5) true)
      (sampleWorld jan5 (some []) fun _ => false) (sampleWorld jan5 (some []) fun _ => false)
      sampleFile [mainFrame] "hello world %s".toList ["test".toList]
      (by decide) (by decide) rfl
  obtain ⟨⟨f3, w3, hf3, hrun3, htr3⟩, _⟩ :=
    log_line_layout Emit.error utc '/' (SetShowFileName (sampleState 0 5) true)
      (SetShowFileName (sampleState 0 5) true)
      (sampleWorld jan5 (some []) fun _ => false) (sampleWorld jan5 (some []) fun _ => false)
      sampleFile [] "hello".toList []
      (by decide) (by decide) rfl
  have e1 : f1 = sampleFile := (Option.some.inj hf1).symm
  have e3 : f3 = sampleFile := (Option.some.inj hf3).symm
  subst e1 e3
  exact ⟨by decide, ⟨w2, hrun, htr.trans (by decide)⟩, ⟨w3, hrun3, htr3.trans (by decide)⟩⟩

/-! ## Setup -/

/-- C4. Resolved path of setup: whenever `SetFile(d, f)` does not abort, the
working directory `cwd` was resolved and the one path it opens for
append-or-create is `cwd ++ sep ++ d ++ sep ++ checkHavePostfix(f)`, with the
`d` of this very call whatever directory the state remembered before; a call
with the same `(d, f)` from any other state under the same working directory
opens the same path. -/
theorem SetFile_path {Arg : Type} (lib : Lib Arg) (sep : Char) (st : LoggerState) (w : World)
    (d f : Str) (h : (SetFile lib sep st w d f).isOk = true) :
    ∃ cwd st1 w1 fd calls,
      w.cwd = some cwd ∧
      SetFile lib sep st w d f = .ok (st1, w1) ∧
      st1.logOut = some ⟨cwd ++ [sep] ++ d ++ [sep] ++ checkHavePostfix f, fd⟩ ∧
      w1.trace = w.trace ++ calls ++
        [.getwd, .openFile (cwd ++ [sep] ++ d ++ [sep] ++ checkHavePostfix f)] ∧
      (∀ p, Call.openFile p ∉ calls) ∧
      ∀ (st2 : LoggerState) (w2 : World), w2.cwd = w.cwd →
        (SetFile lib sep st2 w2 d f).isOk = true →
        ∃ st3 w3 fd3, SetFile lib sep st2 w2 d f = .ok (st3, w3) ∧
          st3.logOut = some ⟨cwd ++ [sep] ++ d ++ [sep] ++ checkHavePostfix f, fd3⟩ := by
  obtain ⟨c, hc, hr⟩ := SetFile_isOk lib sep st w d f h
  obtain ⟨st1, w1, calls, hok, hR, _, htr, hno, _⟩ := SetFile_ok lib sep st w d f c hc hr
  refine ⟨c, st1, w1, w.nextFd, calls, hc, hok, hR.1, htr, hno, ?_⟩
  intro st2 w2 hcwd h2
  obtain ⟨c2, hc2, hr2⟩ := SetFile_isOk lib sep st2 w2 d f h2
  have hcc : c2 = c := by
    rw [hcwd, hc] at hc2
    exact (Option.some.inj hc2).symm
  subst hcc
  obtain ⟨st3, w3, _, hok3, hR3, _⟩ := SetFile_ok lib sep st2 w2 d f c2 hc2 hr2
  exact ⟨st3, w3, w2.nextFd, hok3, hR3.1⟩

/-- From a state that remembers the directory `elsewhere`, `SetFile("logs",
"test")` under `/home/u` opens `/home/u/logs/test.log`. -/
theorem SetFile_path_witness :
    (SetFile utc '/' { LoggerState.zero with logPath := "elsewhere".toList } (emptyWorld jan5)
      "logs".toList "test".toList).isOk = true ∧
    ∃ st1 w1,
      SetFile utc '/' { LoggerState.zero with logPath := "elsewhere".toList } (emptyWorld jan5)
        "logs".toList "test".toList = .ok (st1, w1) ∧
      st1.logOut.map File.name = some "/home/u/logs/test.log".toList ∧
      w1.trace = [.stat "logs".toList, .mkdir "logs".toList, .getwd,
        .openFile "/home/u/logs/test.log".toList] := by
  obtain ⟨cwd, st1, w1, fd, calls, hc, hok, hout, _, _, _⟩ :=
    SetFile_path utc '/' { LoggerState.zero with logPath := "elsewhere".toList }
      (emptyWorld jan5) "logs".toList "test".toList rfl
  have e : cwd = "/home/u".toList := (Option.some.inj hc).symm
  subst e
  refine ⟨rfl, st1, w1, hok, ?_, ?_⟩
  · rw [hout]; rfl
  · have h2 : Except.ok (st1, w1) = SetFile utc '/'
        { LoggerState.zero with logPath := "elsewhere".toList } (emptyWorld jan5)
        "logs".toList "test".toList := hok.symm
    have h3 := congrArg (fun r => match r with
      | Except.ok (_, x) => World.trace x
      | Except.error _ => []) h2
    exact h3

/-! ## Fatal setup errors -/

/-- C7 at its failing inputs.  `SetFile("", "test.log")`: the empty path names no
directory and `os.Mkdir` fails on it, yet `SetFile` returns normally, having
opened `/home/u//test.log`.  `SetFile("/logs", "test.log")` where `/logs` is
absent and the system refuses to make it: `SetFile` returns normally as well. -/
theorem SetFile_mkdir_failure_ignored :
    ((emptyWorld jan5).present [] = false ∧
      (((emptyWorld jan5).issue (.stat [])).Mkdir []).1 = false ∧
      (SetFile utc '/' LoggerState.zero (emptyWorld jan5) [] "test.log".toList).isOk = true ∧
      (match SetFile utc '/' LoggerState.zero (emptyWorld jan5) [] "test.log".toList with
        | .ok (_, w1) => w1.trace
        | .error _ => [])
        = [.stat [], .mkdir [], .getwd, .openFile "/home/u//test.log".toList]) ∧
    ((sampleWorld jan5 none fun c => c = .mkdir "/logs".toList).present "/logs".toList = false ∧
      (((sampleWorld jan5 none fun c => c = .mkdir "/logs".toList).issue
        (.stat "/logs".toList)).Mkdir "/logs".toList).1 = false ∧
      (SetFile utc '/' LoggerState.zero (sampleWorld jan5 none fun c => c = .mkdir "/logs".toList)
        "/logs".toList "test.log".toList).isOk = true) := by
  decide


end HelloGoLog
